import Mathlib

/-!
Verification of the Parcelninja search tool core
(`src/pninja_search_tool.py`) against its specification.

The development shallowly embeds the Python source: JSON-like values
become the inductive type `JValue`, Python dicts become association
lists with first-key lookup and insertion-order preserving update,
the background worker `run_api_search` becomes a pure function from an
abstract remote-service oracle and a cancellation point to the list of
events it pushes on the queue, and the table projection and CSV export
become pure functions on record batches.
-/

/-- JSON-like dynamic values: scalars (string, integer, boolean, null),
nested objects and nested sequences, mirroring what `response.json()`
can produce in the Python source. -/
inductive JValue where
  | s (v : String)
  | i (v : Int)
  | b (v : Bool)
  | null
  | obj (fields : List (String × JValue))
  | arr (elems : List JValue)

/-- A Python dict with string keys, embedded as an association list in
insertion order.  All dicts built by the source have distinct keys. -/
abbrev Record := List (String × JValue)

mutual
/-- Boolean structural equality on `JValue`, used to derive decidable
equality (the automatic derivation does not handle the nested lists). -/
def JValue.beq : JValue → JValue → Bool
  | .s a, .s c => a == c
  | .i a, .i c => a == c
  | .b a, .b c => a == c
  | .null, .null => true
  | .obj fs, .obj gs => beqFields fs gs
  | .arr xs, .arr ys => beqElems xs ys
  | _, _ => false

/-- Boolean equality on object field lists. -/
def beqFields : List (String × JValue) → List (String × JValue) → Bool
  | [], [] => true
  | (k, v) :: r, (k2, v2) :: r2 => k == k2 && JValue.beq v v2 && beqFields r r2
  | _, _ => false

/-- Boolean equality on element lists. -/
def beqElems : List JValue → List JValue → Bool
  | [], [] => true
  | v :: r, v2 :: r2 => JValue.beq v v2 && beqElems r r2
  | _, _ => false
end

mutual
theorem JValue.beq_iff : ∀ a c : JValue, JValue.beq a c = true ↔ a = c
  | .s a, .s c => by simp [JValue.beq]
  | .i a, .i c => by simp [JValue.beq]
  | .b a, .b c => by simp [JValue.beq]
  | .null, .null => by simp [JValue.beq]
  | .obj fs, .obj gs => by simp [JValue.beq, beqFields_iff fs gs]
  | .arr xs, .arr ys => by simp [JValue.beq, beqElems_iff xs ys]
  | .s a, .i c => by simp [JValue.beq]
  | .s a, .b c => by simp [JValue.beq]
  | .s a, .null => by simp [JValue.beq]
  | .s a, .obj g => by simp [JValue.beq]
  | .s a, .arr g => by simp [JValue.beq]
  | .i a, .s c => by simp [JValue.beq]
  | .i a, .b c => by simp [JValue.beq]
  | .i a, .null => by simp [JValue.beq]
  | .i a, .obj g => by simp [JValue.beq]
  | .i a, .arr g => by simp [JValue.beq]
  | .b a, .s c => by simp [JValue.beq]
  | .b a, .i c => by simp [JValue.beq]
  | .b a, .null => by simp [JValue.beq]
  | .b a, .obj g => by simp [JValue.beq]
  | .b a, .arr g => by simp [JValue.beq]
  | .null, .s c => by simp [JValue.beq]
  | .null, .i c => by simp [JValue.beq]
  | .null, .b c => by simp [JValue.beq]
  | .null, .obj g => by simp [JValue.beq]
  | .null, .arr g => by simp [JValue.beq]
  | .obj f, .s c => by simp [JValue.beq]
  | .obj f, .i c => by simp [JValue.beq]
  | .obj f, .b c => by simp [JValue.beq]
  | .obj f, .null => by simp [JValue.beq]
  | .obj f, .arr g => by simp [JValue.beq]
  | .arr f, .s c => by simp [JValue.beq]
  | .arr f, .i c => by simp [JValue.beq]
  | .arr f, .b c => by simp [JValue.beq]
  | .arr f, .null => by simp [JValue.beq]
  | .arr f, .obj g => by simp [JValue.beq]

theorem beqFields_iff : ∀ a c : List (String × JValue), beqFields a c = true ↔ a = c
  | [], [] => by simp [beqFields]
  | (k, v) :: r, (k2, v2) :: r2 => by
      simp [beqFields, JValue.beq_iff v v2, beqFields_iff r r2, Prod.ext_iff, and_assoc]
  | [], _ :: _ => by simp [beqFields]
  | _ :: _, [] => by simp [beqFields]

theorem beqElems_iff : ∀ a c : List JValue, beqElems a c = true ↔ a = c
  | [], [] => by simp [beqElems]
  | v :: r, v2 :: r2 => by simp [beqElems, JValue.beq_iff v v2, beqElems_iff r r2]
  | [], _ :: _ => by simp [beqElems]
  | _ :: _, [] => by simp [beqElems]
end

instance : DecidableEq JValue :=
  fun a c => decidable_of_iff _ (JValue.beq_iff a c)

/-- Lookup in a Python dict: the value stored under key `k`, if present
(keys are unique in every dict the source builds, so first match is the
match). -/
def dictGet (d : Record) (k : String) : Option JValue :=
  match d with
  | [] => none
  | (k2, v) :: rest => if k2 = k then some v else dictGet rest k

/-- Key membership test, `k in d` in Python. -/
def dictContains (d : Record) (k : String) : Bool :=
  (dictGet d k).isSome

/-- Python dict assignment `d[k] = v`: an existing key keeps its
position and gets the new value, a new key is appended at the end. -/
def dictInsert (d : Record) (k : String) (v : JValue) : Record :=
  if dictContains d k then d.map (fun p => if p.1 = k then (k, v) else p)
  else d ++ [(k, v)]

/-- Python `dict(items)`: builds a dict from a pair list, later values
for a duplicated key overriding earlier ones, first occurrence fixing
the position. -/
def dictOf (items : Record) : Record :=
  items.foldl (fun acc p => dictInsert acc p.1 p.2) []

/-- Python `d.pop(k)` restricted to the remaining dict: drops the entry
with key `k`, keeping the order of the others. -/
def dictPop (d : Record) (k : String) : Record :=
  d.filter (fun p => p.1 ≠ k)

/-- Minimal JSON string escaping (quote and backslash), standing in for
the escaping done by Python `json.dumps`; the claims under verification
never depend on escape sequences beyond these. -/
def escapeJson (str : String) : String :=
  String.mk (str.toList.flatMap (fun c =>
    if c = '"' then ['\\', '"']
    else if c = '\\' then ['\\', '\\']
    else [c]))

mutual
/-- Embedding of Python `json.dumps` with its default separators:
elements joined by a comma and a space, object entries rendered as
quoted key, colon, space, value. -/
def dumps : JValue → String
  | .s v => "\"" ++ escapeJson v ++ "\""
  | .i v => toString v
  | .b true => "true"
  | .b false => "false"
  | .null => "null"
  | .obj fields => "\x7b" ++ dumpsFields fields ++ "\x7d"
  | .arr elems => "[" ++ dumpsElems elems ++ "]"

/-- Serialization of the field list of a JSON object. -/
def dumpsFields : List (String × JValue) → String
  | [] => ""
  | [(k, v)] => "\"" ++ escapeJson k ++ "\": " ++ dumps v
  | (k, v) :: rest => "\"" ++ escapeJson k ++ "\": " ++ dumps v ++ ", " ++ dumpsFields rest

/-- Serialization of the element list of a JSON array. -/
def dumpsElems : List JValue → String
  | [] => ""
  | [v] => dumps v
  | v :: rest => dumps v ++ ", " ++ dumpsElems rest
end

/-- Item list produced by `_flatten_dict` before Python wraps it in
`dict(items)` (source lines 426 to 437): nested objects are walked
recursively with the parent key joined by `sep`, list values are
serialized with `json.dumps`, every other value passes through. -/
def flattenItems (d : Record) (parent_key sep : String) : Record :=
  match d with
  | [] => []
  | (k, v) :: rest =>
    let new_key := if parent_key = "" then k else parent_key ++ sep ++ k
    (match v with
     | .obj fields => flattenItems fields new_key sep
     | .arr elems => [(new_key, .s (dumps (.arr elems)))]
     | v => [(new_key, v)]) ++ flattenItems rest parent_key sep

/-- Embedding of `ParcelninjaSearchTool._flatten_dict`: the flattened
item list collected into a dict.  The source always calls it with
`parent_key = ""` and `sep = "."`. -/
def _flatten_dict (d : Record) (parent_key sep : String) : Record :=
  dictOf (flattenItems d parent_key sep)

/-- Base URL of the remote service (source line 16). -/
def API_BASE_URL : String := "https://storeapi.parcelninja.com/api/v1"

/-- Credentials and identity of one store (the `Store` dataclass,
source lines 27 to 33). -/
structure Store where
  id : String
  name : String
  username : String
  password : String
deriving DecidableEq

/-- Conversion from a day count since 1970-01-01 to a Gregorian
calendar date, the calendar arithmetic behind `datetime.utcnow()` and
`timedelta(days=730)`.  Standard civil-from-days algorithm. -/
def civilFromDays (z : Int) : Int × Int × Int :=
  let z2 := z + 719468
  let era := (if 0 ≤ z2 then z2 else z2 - 146096) / 146097
  let doe := z2 - era * 146097
  let yoe := (doe - doe / 1460 + doe / 36524 - doe / 146096) / 365
  let y := yoe + era * 400
  let doy := doe - (365 * yoe + yoe / 4 - yoe / 100)
  let mp := (5 * doy + 2) / 153
  let d := doy - (153 * mp + 2) / 5 + 1
  let m := if mp < 10 then mp + 3 else mp - 9
  (if m ≤ 2 then y + 1 else y, m, d)

/-- Two-digit zero padding, as in `strftime`. -/
def pad2 (n : Int) : String :=
  if n < 10 then "0" ++ toString n else toString n

/-- Embedding of `strftime("%Y%m%d")` on the date that lies `z` days
after 1970-01-01. -/
def fmtYYYYMMDD (z : Int) : String :=
  let c := civilFromDays z
  toString c.1 ++ pad2 c.2.1 ++ pad2 c.2.2

/-- Query parameters the source builds for a windowed search (source
lines 303 to 308), with `utcnow` falling on day `nowDays` after
1970-01-01: a fixed trailing 730-day window formatted `YYYYMMDD`, the
term under the generic `search` key, and a page size of 100 (the
integer 100 is rendered as the string "100" on the wire).  Note that
the dict `params` of the source contains only these four entries. -/
def windowedParams (nowDays : Nat) (term : String) : List (String × String) :=
  [("startDate", fmtYYYYMMDD ((nowDays : Int) - 730)),
   ("endDate", fmtYYYYMMDD (nowDays : Int)),
   ("search", term),
   ("pageSize", "100")]

/-- Embedding of the dict-lookup `{...}.get(search_field, "search")`
at source lines 297 to 301: the field-specific query parameter name the
source computes (and, as `C2` shows, never uses). -/
def api_search_field (search_field : String) : String :=
  if search_field = "Client ID" then "clientId"
  else if search_field = "Channel ID" then "channelId"
  else if search_field = "Supplier Reference" then "supplierReference"
  else "search"

/-- Events the worker pushes on `api_queue`: log messages with a level,
or the terminal completion message carrying the accumulated records. -/
inductive Event where
  | log (msg : String) (level : String)
  | done (results : List Record)
deriving DecidableEq

/-- Outcome of the single remote call made for one term, as seen by the
worker: either an HTTP response (status, parsed JSON object body, raw
text) or a `requests.RequestException` with its message.  Per the
external contract of the service, a successful body parses to a JSON
object, which is what the source assumes when it mutates the payload. -/
inductive RemoteOutcome where
  | response (status : Nat) (body : Record) (text : String)
  | exn (msg : String)
deriving DecidableEq

/-- The synthetic placeholder record appended for an unsatisfied term
(source lines 329 to 333 and 337 to 341): original term, error reason
and store name, in this insertion order. -/
def mkErrorRecord (term reason storeName : String) : Record :=
  [("shipment_id_searched", .s term),
   ("status_error", .s reason),
   ("_store_name", .s storeName)]

/-- Embedding of `data.get(key, [])` followed by iteration: the list
stored under `key`, or the empty default when the key is absent.  The
service contract (spec section 6) guarantees the key, when present,
holds a list. -/
def getList (d : Record) (k : String) : List JValue :=
  match dictGet d k with
  | some (.arr xs) => xs
  | _ => []

/-- Coercion of a windowed-search list item to the JSON object the
source mutates with `item["_store_name"] = store.name`; the service
contract makes every item an object. -/
def asObj : JValue → Record
  | .obj fields => fields
  | _ => []

/-- Python `text[:50]`, the truncated response excerpt. -/
def pyTake (s : String) (n : Nat) : String :=
  String.mk (s.toList.take n)

/-- One iteration of the worker loop of `run_api_search` (source lines
265 to 341) for the term at position `index` out of `total`, given the
outcome of its remote call: the log events pushed for the term and the
records appended to `results`.  Both lookup strategies first push the
progress log and the request debug log; the debug log precedes the
remote call, so it is present even when the call raises. -/
def handleTerm (store : Store) (search_type search_field term : String)
    (index total : Nat) (out : RemoteOutcome) : List Event × List Record :=
  let progress := Event.log ("Searching (" ++ toString (index + 1) ++ "/" ++
    toString total ++ "): " ++ term ++ "...") "INFO"
  if search_type = "outbound" && search_field = "Client ID" then
    let dbg := Event.log ("GET " ++ API_BASE_URL ++ "/outbounds/0 [X-Client-Id: " ++
      term ++ "]") "DEBUG"
    match out with
    | .exn e =>
        ([progress, dbg, .log ("Exception for \x27" ++ term ++ "\x27: " ++ e) "ERROR"],
         [mkErrorRecord term ("Network Error: " ++ e) store.name])
    | .response status body _text =>
        if status = 200 then
          ([progress, dbg], [dictInsert body "_store_name" (.s store.name)])
        else if status = 404 then
          ([progress, dbg,
            .log ("Term \x27" ++ term ++ "\x27 not found (404).") "WARN"],
           [mkErrorRecord term "Not Found" store.name])
        else
          ([progress, dbg,
            .log ("Error for \x27" ++ term ++ "\x27: HTTP " ++ toString status ++
              ": " ++ pyTake _text 50) "ERROR"],
           [mkErrorRecord term "Not Found" store.name])
  else
    let dbg := Event.log ("GET " ++ API_BASE_URL ++ "/" ++ search_type ++
      "s ?search=" ++ term) "DEBUG"
    match out with
    | .exn e =>
        ([progress, dbg, .log ("Exception for \x27" ++ term ++ "\x27: " ++ e) "ERROR"],
         [mkErrorRecord term ("Network Error: " ++ e) store.name])
    | .response status body _text =>
        if status = 200 then
          let found_items := getList body (search_type ++ "s")
          if found_items.isEmpty then
            ([progress, dbg,
              .log ("Term \x27" ++ term ++ "\x27 returned 0 results.") "WARN"],
             [mkErrorRecord term "Not Found" store.name])
          else
            ([progress, dbg],
             found_items.map (fun item => dictInsert (asObj item) "_store_name" (.s store.name)))
        else
          ([progress, dbg,
            .log ("Error for \x27" ++ term ++ "\x27: HTTP " ++ toString status) "ERROR"],
           [mkErrorRecord term "Not Found" store.name])

/-- The cancellation model: `stop_event.is_set()` as observed at the
term-boundary check.  `stopAt = some n` means the flag becomes visible
at the check preceding term `n` (and, the flag being monotone, at every
later check); `none` means the flag is never set during the run. -/
def stopHit (stopAt : Option Nat) (index : Nat) : Bool :=
  match stopAt with
  | none => false
  | some n => n ≤ index

/-- The worker loop of `run_api_search` from the term at position
`index` on: checks the stop flag at the term boundary, otherwise
processes the term and recurses.  Returns the pushed log events and the
accumulated records. -/
def searchLoop (store : Store) (search_type search_field : String)
    (oracle : Nat → RemoteOutcome) (stopAt : Option Nat) (total : Nat) :
    List String → Nat → List Event × List Record
  | [], _ => ([], [])
  | term :: rest, index =>
    if stopHit stopAt index then
      ([Event.log "Search stopped by user." "WARN"], [])
    else
      let this_term := handleTerm store search_type search_field term index total (oracle index)
      let remaining := searchLoop store search_type search_field oracle stopAt total rest (index + 1)
      (this_term.1 ++ remaining.1, this_term.2 ++ remaining.2)

/-- The record batch accumulated by a run. -/
def run_results (store : Store) (search_type search_field : String)
    (terms : List String) (oracle : Nat → RemoteOutcome) (stopAt : Option Nat) :
    List Record :=
  (searchLoop store search_type search_field oracle stopAt terms.length terms 0).2

/-- Embedding of the worker `run_api_search` (source lines 253 to 344)
as the sequence of messages it pushes on `api_queue`, in push order:
the loop events followed by the terminal done message carrying the
accumulated records.  The remote service is abstracted by `oracle`,
giving the outcome of the one call made for the term at each position;
cancellation by `stopAt` as in `stopHit`. -/
def run_api_search (store : Store) (search_type search_field : String)
    (terms : List String) (oracle : Nat → RemoteOutcome) (stopAt : Option Nat) :
    List Event :=
  (searchLoop store search_type search_field oracle stopAt terms.length terms 0).1 ++
    [Event.done (run_results store search_type search_field terms oracle stopAt)]

/-- The per-term event blocks of a run that never observes the stop
flag, starting at position `index`: used to state event order. -/
def perTermEvents (store : Store) (search_type search_field : String)
    (oracle : Nat → RemoteOutcome) (total : Nat) :
    List String → Nat → List (List Event)
  | [], _ => []
  | term :: rest, index =>
    (handleTerm store search_type search_field term index total (oracle index)).1 ::
      perTermEvents store search_type search_field oracle total rest (index + 1)

/-- The per-term record blocks of a run that never observes the stop
flag, starting at position `index`: block `i` holds exactly the records
contributed by term `i`, in remote-response order. -/
def perTermRecs (store : Store) (search_type search_field : String)
    (oracle : Nat → RemoteOutcome) (total : Nat) :
    List String → Nat → List (List Record)
  | [], _ => []
  | term :: rest, index =>
    (handleTerm store search_type search_field term index total (oracle index)).2 ::
      perTermRecs store search_type search_field oracle total rest (index + 1)

/-- Number of terms the loop fully processes: all of them without a
stop signal, the first `n` when the flag becomes visible at check `n`. -/
def processedCount (stopAt : Option Nat) (numTerms : Nat) : Nat :=
  match stopAt with
  | none => numTerms
  | some n => min n numTerms

/-- ASCII whitespace as recognized by Python `str.strip()` (the claims
use only ASCII terms). -/
def pyIsSpace (c : Char) : Bool :=
  c = ' ' || c = '\t' || c = '\n' || c = '\r' || c = '\x0b' || c = '\x0c'

/-- Embedding of Python `str.strip()`: drops leading and trailing
whitespace. -/
def pyStrip (s : String) : String :=
  String.mk (((s.toList.dropWhile pyIsSpace).reverse.dropWhile pyIsSpace).reverse)

/-- Splitting pass behind `re.split`: cuts the character list at every
separator character, keeping empty pieces. -/
def pySplitChars (p : Char → Bool) : List Char → List Char → List String
  | [], acc => [String.mk acc.reverse]
  | c :: rest, acc =>
    if p c then String.mk acc.reverse :: pySplitChars p rest []
    else pySplitChars p rest (c :: acc)

/-- Embedding of `re.split(r"[,\n]", raw)` (source line 224): split at
every comma or newline. -/
def reSplitCommaNewline (s : String) : List String :=
  pySplitChars (fun c => c = ',' || c = '\n') s.toList []

/-- The parsed term list of `start_search` (source line 224): split the
raw input, strip each piece, drop the blank ones. -/
def parseTerms (raw : String) : List String :=
  ((reSplitCommaNewline raw).map pyStrip).filter (fun t => t ≠ "")

/-- Externally visible effects of `start_search` (source lines 212 to
251), in order: the warning dialog for a blank input, the error dialog
for an unknown store, and otherwise the state reset (previous results
cleared) followed by the background worker being spawned on the parsed
terms. -/
inductive StartEffect where
  | showWarning (title msg : String)
  | showStoreError
  | clearResults
  | spawnSearch (terms : List String)
deriving DecidableEq

/-- Embedding of `start_search`: the guard rejects a raw term string
that strips to empty before any state is touched; otherwise, once the
store is resolved, previous results are cleared and the worker thread
is started on the parsed term list. -/
def start_search (raw : String) (store_found : Bool) : List StartEffect :=
  if pyStrip raw = "" then
    [.showWarning "Input Required" "Please enter one or more search terms."]
  else if store_found = false then
    [.showStoreError]
  else
    [.clearResults, .spawnSearch (parseTerms raw)]

/-- Lexicographic order on strings by code point, the order Python
`sorted` uses on the header names. -/
def strLe (a b : String) : Prop :=
  a.data ≤ b.data

instance : DecidableRel strLe :=
  fun a b => (inferInstance : Decidable (a.data ≤ b.data))

instance : IsTotal String strLe :=
  ⟨fun a b => le_total a.data b.data⟩

instance : IsTrans String strLe :=
  ⟨fun _ _ _ h1 h2 => le_trans h1 h2⟩

instance : IsAntisymm String strLe :=
  ⟨fun a b h1 h2 => by
    cases a; cases b
    exact congrArg String.mk (le_antisymm h1 h2)⟩

/-- The flattened batch both the table projector and the CSV exporter
work from (source lines 393 to 400 and 455 to 460): each record is
flattened, then the internal `_store_name` tag is popped and re-added
under the clean key `Store`. -/
def flat_results (results : List Record) : List Record :=
  results.map (fun r =>
    let flat := _flatten_dict r "" "."
    match dictGet flat "_store_name" with
    | some v => dictInsert (dictPop flat "_store_name") "Store" v
    | none => flat)

/-- Embedding of the pure core of `update_results_table` (source lines
376 to 424): on an empty batch the table is left cleared; otherwise the
column list is `Store` followed by every other field name present in
any flattened record, sorted, and each row looks every column up in its
record with the empty string as default.  The red error-row tag is
presentation only and not modelled. -/
def update_results_table (results : List Record) :
    List String × List (List JValue) :=
  if results.isEmpty then ([], [])
  else
    let flats := flat_results results
    let all_headers := ("Store" :: flats.flatMap (fun r => r.map Prod.fst)).dedup
    let sorted_headers :=
      "Store" :: ((all_headers.filter (fun h => h ≠ "Store")).insertionSort strLe)
    (sorted_headers,
     flats.map (fun r => sorted_headers.map (fun c => (dictGet r c).getD (.s ""))))

/-- The CSV header computed by `export_to_csv` (source line 462):
`Store` first, then the set of all other keys of the re-flattened
batch, sorted. -/
def export_headers (resultsData : List Record) : List String :=
  "Store" ::
    ((((flat_results resultsData).flatMap (fun r => r.map Prod.fst)).filter
      (fun k => k ≠ "Store")).dedup.insertionSort strLe)

/-- Outcome of one invocation of `export_to_csv` (source lines 439 to
475): the informational no-data dialog, the user cancelling the file
dialog, a successful write of header and rows, or a reported I/O
error. -/
inductive ExportOutcome where
  | nothingToExport
  | cancelled
  | written (header : List String) (rows : List Record)
  | ioError (msg : String)
deriving DecidableEq

/-- Embedding of `export_to_csv`: an empty stored batch short-circuits
to the no-data outcome before the file dialog; otherwise the file
system either fails the write, which is reported with its cause, or
receives the header and the re-flattened rows in batch order. -/
def export_to_csv (resultsData : List Record) (filepath : Option String)
    (write_error : Option String) : ExportOutcome :=
  if resultsData.isEmpty then .nothingToExport
  else
    match filepath with
    | none => .cancelled
    | some _ =>
      match write_error with
      | some e => .ioError ("Could not write to file: " ++ e)
      | none => .written (export_headers resultsData) (flat_results resultsData)

/-- Test for a nested mapping value. -/
def isMapping : JValue → Bool
  | .obj _ => true
  | _ => false

/-- Test for a scalar value: neither a nested mapping nor a sequence. -/
def isScalarV : JValue → Bool
  | .obj _ => false
  | .arr _ => false
  | _ => true

theorem dictContains_iff_mem (d : Record) (k : String) :
    dictContains d k = true ↔ k ∈ d.map Prod.fst := by
  induction d with
  | nil => simp [dictContains, dictGet]
  | cons p rest ih =>
    obtain ⟨k2, v⟩ := p
    by_cases h : k2 = k
    · simp [dictContains, dictGet, h]
    · simp only [dictContains, dictGet, if_neg h, List.map_cons, List.mem_cons]
      constructor
      · intro hsome
        exact Or.inr (ih.mp hsome)
      · intro hmem
        rcases hmem with heq | hmem
        · exact absurd heq.symm h
        · exact ih.mpr hmem

theorem mem_dictInsert (d : Record) (k : String) (v : JValue) (p : String × JValue)
    (hp : p ∈ dictInsert d k v) : p ∈ d ∨ p = (k, v) := by
  unfold dictInsert at hp
  split at hp
  · rcases List.mem_map.mp hp with ⟨q, hq, rfl⟩
    by_cases h : q.1 = k
    · right; simp [h]
    · left; simpa [h] using hq
  · rcases List.mem_append.mp hp with h | h
    · exact Or.inl h
    · exact Or.inr (List.mem_singleton.mp h)

theorem keys_map_update (d : Record) (k : String) (v : JValue) :
    (d.map (fun p => if p.1 = k then (k, v) else p)).map Prod.fst = d.map Prod.fst := by
  induction d with
  | nil => simp
  | cons p rest ih =>
    by_cases h : p.1 = k
    · simp [h, ih]
    · simp [h, ih]

theorem keys_dictInsert (d : Record) (k : String) (v : JValue) :
    (dictInsert d k v).map Prod.fst =
      if dictContains d k then d.map Prod.fst else d.map Prod.fst ++ [k] := by
  by_cases h : dictContains d k = true
  · simp only [dictInsert, h, if_true]
    exact keys_map_update d k v
  · simp [dictInsert, h]

theorem keys_dictInsert_nodup (d : Record) (k : String) (v : JValue)
    (h : (d.map Prod.fst).Nodup) : ((dictInsert d k v).map Prod.fst).Nodup := by
  rw [keys_dictInsert]
  split
  · exact h
  · rename_i hc
    have : ¬ k ∈ d.map Prod.fst := by
      rw [← dictContains_iff_mem]
      simpa using hc
    simp [List.nodup_append, h, this]

theorem dictOf_go_subset :
    ∀ (l acc : Record), ∀ p ∈ List.foldl (fun acc q => dictInsert acc q.1 q.2) acc l,
      p ∈ acc ∨ p ∈ l := by
  intro l
  induction l with
  | nil =>
    intro acc p hp
    simp only [List.foldl_nil] at hp
    exact Or.inl hp
  | cons q rest ih =>
    intro acc p hp
    simp only [List.foldl_cons] at hp
    rcases ih (dictInsert acc q.1 q.2) p hp with h | h
    · rcases mem_dictInsert acc q.1 q.2 p h with h2 | h2
      · exact Or.inl h2
      · exact Or.inr (by simp [h2])
    · exact Or.inr (List.mem_cons_of_mem q h)

theorem dictOf_subset (l : Record) (p : String × JValue) (hp : p ∈ dictOf l) : p ∈ l := by
  rcases dictOf_go_subset l [] p hp with h | h
  · simp at h
  · exact h

theorem dictOf_go_keys_nodup :
    ∀ (l acc : Record), (acc.map Prod.fst).Nodup →
      ((List.foldl (fun acc q => dictInsert acc q.1 q.2) acc l).map Prod.fst).Nodup := by
  intro l
  induction l with
  | nil => intro acc h; simpa using h
  | cons q rest ih =>
    intro acc h
    simp only [List.foldl_cons]
    exact ih (dictInsert acc q.1 q.2) (keys_dictInsert_nodup acc q.1 q.2 h)

theorem dictOf_keys_nodup (l : Record) : ((dictOf l).map Prod.fst).Nodup :=
  dictOf_go_keys_nodup l [] (by simp)

theorem dictOf_go_eq :
    ∀ (l acc : Record), ((acc ++ l).map Prod.fst).Nodup →
      List.foldl (fun acc q => dictInsert acc q.1 q.2) acc l = acc ++ l := by
  intro l
  induction l with
  | nil => intro acc _; simp
  | cons q rest ih =>
    intro acc h
    have hq : ¬ q.1 ∈ acc.map Prod.fst := by
      intro hmem
      rw [List.map_append, List.nodup_append] at h
      exact h.2.2 hmem (by simp)
    have hc : dictContains acc q.1 = false := by
      rw [← Bool.not_eq_true, dictContains_iff_mem]
      exact hq
    have hins : dictInsert acc q.1 q.2 = acc ++ [q] := by
      unfold dictInsert
      rw [hc]
      simp
    simp only [List.foldl_cons, hins]
    have hnd : (((acc ++ [q]) ++ rest).map Prod.fst).Nodup := by
      simpa [List.append_assoc] using h
    have := ih (acc ++ [q]) hnd
    simpa [List.append_assoc] using this

theorem dictOf_eq_self (l : Record) (h : (l.map Prod.fst).Nodup) : dictOf l = l := by
  have := dictOf_go_eq l [] (by simpa using h)
  simpa using this

theorem flattenItems_scalar :
    ∀ (d : Record) (par sep : String), ∀ p ∈ flattenItems d par sep, isScalarV p.2 = true
  | [], _, _ => by simp [flattenItems]
  | (k, v) :: rest, par, sep => by
    intro p hp
    cases v with
    | obj fields =>
      simp only [flattenItems, List.mem_append] at hp
      rcases hp with h | h
      · exact flattenItems_scalar fields _ sep p h
      · exact flattenItems_scalar rest par sep p h
    | arr elems =>
      simp only [flattenItems, List.mem_append, List.mem_singleton] at hp
      rcases hp with h | h
      · rw [h]; rfl
      · exact flattenItems_scalar rest par sep p h
    | s x =>
      simp only [flattenItems, List.mem_append, List.mem_singleton] at hp
      rcases hp with h | h
      · rw [h]; rfl
      · exact flattenItems_scalar rest par sep p h
    | i x =>
      simp only [flattenItems, List.mem_append, List.mem_singleton] at hp
      rcases hp with h | h
      · rw [h]; rfl
      · exact flattenItems_scalar rest par sep p h
    | b x =>
      simp only [flattenItems, List.mem_append, List.mem_singleton] at hp
      rcases hp with h | h
      · rw [h]; rfl
      · exact flattenItems_scalar rest par sep p h
    | null =>
      simp only [flattenItems, List.mem_append, List.mem_singleton] at hp
      rcases hp with h | h
      · rw [h]; rfl
      · exact flattenItems_scalar rest par sep p h

theorem flattenItems_of_scalar :
    ∀ (d : Record) (sep : String), (∀ p ∈ d, isScalarV p.2 = true) →
      flattenItems d "" sep = d
  | [], _, _ => by simp [flattenItems]
  | (k, v) :: rest, sep, h => by
    have hrest : ∀ p ∈ rest, isScalarV p.2 = true := fun p hp => h p (by simp [hp])
    have hv : isScalarV v = true := h (k, v) (by simp)
    cases v with
    | obj fields => simp [isScalarV] at hv
    | arr elems => simp [isScalarV] at hv
    | s x => simp [flattenItems, flattenItems_of_scalar rest sep hrest]
    | i x => simp [flattenItems, flattenItems_of_scalar rest sep hrest]
    | b x => simp [flattenItems, flattenItems_of_scalar rest sep hrest]
    | null => simp [flattenItems, flattenItems_of_scalar rest sep hrest]

/-- Claim C7, counterexample: a record whose only value is a sequence
has no nested mapping values, so it is flat in the sense of the claim,
yet flattening changes its value (the list `[1]` becomes the serialized
text `"[1]"`), so flattening is not the identity on all such records. -/
theorem C7_counterexample :
    (∀ p ∈ ([("a", JValue.arr [JValue.i 1])] : Record), isMapping p.2 = false) ∧
    _flatten_dict [("a", JValue.arr [JValue.i 1])] "" "." ≠
      [("a", JValue.arr [JValue.i 1])] := by
  constructor
  · decide
  · have hev : _flatten_dict [("a", JValue.arr [JValue.i 1])] "" "." =
        [("a", JValue.s "[1]")] := by
      simp +decide [_flatten_dict, flattenItems, dictOf, dictInsert, dictContains, dictGet]
    rw [hev]
    decide

/-- Claim C7, amended: flattening composed with flattening equals
flattening (full idempotence, nested maps joined by the separator,
sequences serialized, scalars unchanged), and flattening is the
identity on every record none of whose values is a nested mapping or a
sequence; a flat record with a sequence value keeps its field names but
has the sequence replaced by its serialized text. -/
theorem C7_flatten_idempotent (r : Record) :
    _flatten_dict (_flatten_dict r "" ".") "" "." = _flatten_dict r "" "." ∧
    ((r.map Prod.fst).Nodup → (∀ p ∈ r, isScalarV p.2 = true) →
      _flatten_dict r "" "." = r) := by
  constructor
  · have hsc : ∀ p ∈ _flatten_dict r "" ".", isScalarV p.2 = true := fun p hp =>
      flattenItems_scalar r "" "." p (dictOf_subset _ p hp)
    show dictOf (flattenItems (_flatten_dict r "" ".") "" ".") = _flatten_dict r "" "."
    rw [flattenItems_of_scalar (_flatten_dict r "" ".") "." hsc]
    exact dictOf_eq_self _ (dictOf_keys_nodup _)
  · intro hnd hsc
    show dictOf (flattenItems r "" ".") = r
    rw [flattenItems_of_scalar r "." hsc]
    exact dictOf_eq_self r hnd

/-- Witness for C7: the amended theorem applied to a concrete flat
scalar record. -/
theorem C7_flatten_idempotent_witness :
    _flatten_dict (_flatten_dict [("a", JValue.s "x"), ("b", JValue.i 2)] "" ".") "" "." =
      _flatten_dict [("a", JValue.s "x"), ("b", JValue.i 2)] "" "." ∧
    _flatten_dict [("a", JValue.s "x"), ("b", JValue.i 2)] "" "." =
      [("a", JValue.s "x"), ("b", JValue.i 2)] :=
  ⟨(C7_flatten_idempotent [("a", JValue.s "x"), ("b", JValue.i 2)]).1,
   (C7_flatten_idempotent [("a", JValue.s "x"), ("b", JValue.i 2)]).2
     (by decide) (by decide)⟩

theorem dictGet_map_update (d : Record) (k : String) (v : JValue)
    (h : dictContains d k = true) :
    dictGet (d.map (fun p => if p.1 = k then (k, v) else p)) k = some v := by
  induction d with
  | nil => simp [dictContains, dictGet] at h
  | cons p rest ih =>
    obtain ⟨k2, v2⟩ := p
    simp only [List.map_cons]
    by_cases h2 : k2 = k
    · rw [if_pos h2]
      simp [dictGet]
    · rw [if_neg h2]
      have hrest : dictContains rest k = true := by
        simpa [dictContains, dictGet, h2] using h
      simp [dictGet, h2, ih hrest]

theorem dictGet_append_single (d : Record) (k : String) (v : JValue)
    (h : dictContains d k = false) :
    dictGet (d ++ [(k, v)]) k = some v := by
  induction d with
  | nil => simp [dictGet]
  | cons p rest ih =>
    obtain ⟨k2, v2⟩ := p
    have h2 : ¬ k2 = k := by
      intro hk
      simp [dictContains, dictGet, hk] at h
    have hrest : dictContains rest k = false := by
      simpa [dictContains, dictGet, h2] using h
    simp [dictGet, h2, ih hrest]

theorem dictGet_dictInsert_self (d : Record) (k : String) (v : JValue) :
    dictGet (dictInsert d k v) k = some v := by
  by_cases h : dictContains d k = true
  · simp only [dictInsert, h, if_true]
    exact dictGet_map_update d k v h
  · have h2 : dictContains d k = false := by simpa using h
    simp only [dictInsert, h2, Bool.false_eq_true, if_false]
    exact dictGet_append_single d k v h2

theorem handleTerm_recs_cases (store : Store) (st sf term : String)
    (idx total : Nat) (out : RemoteOutcome) :
    (∃ reason, (handleTerm store st sf term idx total out).2 =
      [mkErrorRecord term reason store.name]) ∨
    ((handleTerm store st sf term idx total out).2 ≠ [] ∧
      ∀ r ∈ (handleTerm store st sf term idx total out).2,
        dictGet r "_store_name" = some (.s store.name)) := by
  cases out with
  | exn e =>
    left
    refine ⟨"Network Error: " ++ e, ?_⟩
    unfold handleTerm
    split <;> rfl
  | response status body text =>
    unfold handleTerm
    split
    · by_cases h200 : status = 200
      · right
        constructor
        · simp [h200]
        · intro r hr
          simp only [h200, if_true, List.mem_singleton] at hr
          rw [hr]
          exact dictGet_dictInsert_self body "_store_name" (.s store.name)
      · left
        by_cases h404 : status = 404
        · exact ⟨"Not Found", by simp [h200, h404]⟩
        · exact ⟨"Not Found", by simp [h200, h404]⟩
    · by_cases h200 : status = 200
      · by_cases hempty : (getList body (st ++ "s")).isEmpty = true
        · left
          exact ⟨"Not Found", by simp [h200, hempty]⟩
        · right
          have hne : getList body (st ++ "s") ≠ [] := by
            simpa [List.isEmpty_iff] using hempty
          constructor
          · simp [h200, hempty, hne]
          · intro r hr
            simp only [h200, hempty, if_true, Bool.false_eq_true, if_false,
              List.mem_map] at hr
            rcases hr with ⟨item, _, rfl⟩
            exact dictGet_dictInsert_self (asObj item) "_store_name" (.s store.name)
      · left
        exact ⟨"Not Found", by simp [h200]⟩

theorem handleTerm_recs_ne_nil (store : Store) (st sf term : String)
    (idx total : Nat) (out : RemoteOutcome) :
    (handleTerm store st sf term idx total out).2 ≠ [] := by
  rcases handleTerm_recs_cases store st sf term idx total out with ⟨reason, h⟩ | ⟨h, _⟩
  · rw [h]; simp
  · exact h

theorem handleTerm_events_log (store : Store) (st sf term : String)
    (idx total : Nat) (out : RemoteOutcome) :
    ∀ e ∈ (handleTerm store st sf term idx total out).1,
      ∃ msg level, e = Event.log msg level := by
  intro e he
  cases out with
  | exn e2 =>
    simp only [handleTerm] at he
    split at he
    · simp only [List.mem_cons, List.not_mem_nil, or_false] at he
      rcases he with h | h | h <;> exact ⟨_, _, h⟩
    · simp only [List.mem_cons, List.not_mem_nil, or_false] at he
      rcases he with h | h | h <;> exact ⟨_, _, h⟩
  | response status body text =>
    simp only [handleTerm] at he
    split at he
    · split at he
      · simp only [List.mem_cons, List.not_mem_nil, or_false] at he
        rcases he with h | h <;> exact ⟨_, _, h⟩
      · split at he
        · simp only [List.mem_cons, List.not_mem_nil, or_false] at he
          rcases he with h | h | h <;> exact ⟨_, _, h⟩
        · simp only [List.mem_cons, List.not_mem_nil, or_false] at he
          rcases he with h | h | h <;> exact ⟨_, _, h⟩
    · split at he
      · split at he
        · simp only [List.mem_cons, List.not_mem_nil, or_false] at he
          rcases he with h | h | h <;> exact ⟨_, _, h⟩
        · simp only [List.mem_cons, List.not_mem_nil, or_false] at he
          rcases he with h | h <;> exact ⟨_, _, h⟩
      · simp only [List.mem_cons, List.not_mem_nil, or_false] at he
        rcases he with h | h | h <;> exact ⟨_, _, h⟩

theorem searchLoop_none (store : Store) (st sf : String) (oracle : Nat → RemoteOutcome)
    (total : Nat) :
    ∀ (terms : List String) (index : Nat),
      searchLoop store st sf oracle none total terms index =
        ((perTermEvents store st sf oracle total terms index).flatten,
         (perTermRecs store st sf oracle total terms index).flatten) := by
  intro terms
  induction terms with
  | nil => intro index; simp [searchLoop, perTermEvents, perTermRecs]
  | cons t rest ih =>
    intro index
    simp [searchLoop, stopHit, perTermEvents, perTermRecs, ih (index + 1)]

theorem searchLoop_some (store : Store) (st sf : String) (oracle : Nat → RemoteOutcome)
    (total : Nat) (n : Nat) :
    ∀ (terms : List String) (index : Nat), index ≤ n →
      searchLoop store st sf oracle (some n) total terms index =
        ((perTermEvents store st sf oracle total (terms.take (n - index)) index).flatten ++
          (if terms.length ≤ n - index then []
           else [Event.log "Search stopped by user." "WARN"]),
         (perTermRecs store st sf oracle total (terms.take (n - index)) index).flatten) := by
  intro terms
  induction terms with
  | nil =>
    intro index _
    simp [searchLoop, perTermEvents, perTermRecs]
  | cons t rest ih =>
    intro index hle
    by_cases hstop : n ≤ index
    · have h0 : n - index = 0 := by omega
      have hhit : stopHit (some n) index = true := by
        simp [stopHit]; omega
      simp [searchLoop, hhit, h0, perTermEvents, perTermRecs]
    · have hhit : stopHit (some n) index = false := by
        simp [stopHit]; omega
      have hsub : n - index = (n - (index + 1)) + 1 := by omega
      have hiff : ((t :: rest).length ≤ (n - (index + 1)) + 1) ↔
          (rest.length ≤ n - (index + 1)) := by
        simp [List.length_cons]
      simp only [searchLoop, hhit, Bool.false_eq_true, if_false]
      rw [ih (index + 1) (by omega)]
      rw [hsub]
      simp only [List.take_succ_cons, perTermEvents, perTermRecs, List.flatten_cons]
      simp only [hiff]
      simp [List.append_assoc]

theorem perTermRecs_length (store : Store) (st sf : String)
    (oracle : Nat → RemoteOutcome) (total : Nat) :
    ∀ (terms : List String) (index : Nat),
      (perTermRecs store st sf oracle total terms index).length = terms.length := by
  intro terms
  induction terms with
  | nil => intro i; rfl
  | cons t rest ih => intro i; simp [perTermRecs, ih (i + 1)]

theorem perTermRecs_get (store : Store) (st sf : String)
    (oracle : Nat → RemoteOutcome) (total : Nat) :
    ∀ (terms : List String) (index i : Nat) (t : String), terms.get? i = some t →
      (perTermRecs store st sf oracle total terms index).get? i =
        some ((handleTerm store st sf t (index + i) total (oracle (index + i))).2) := by
  intro terms
  induction terms with
  | nil => intro index i t h; simp at h
  | cons t0 rest ih =>
    intro index i t h
    cases i with
    | zero =>
      simp only [List.get?_cons_zero, Option.some_inj] at h
      subst h
      simp [perTermRecs]
    | succ j =>
      have ht : rest.get? j = some t := by simpa using h
      have := ih (index + 1) j t ht
      have heq : index + 1 + j = index + (j + 1) := by omega
      rw [heq] at this
      simpa [perTermRecs] using this

/-- The stop notice the loop logs when cancellation cuts it short: none
without a signal, none when the signal index lies past the term list. -/
def stopNotice (stopAt : Option Nat) (numTerms : Nat) : List Event :=
  match stopAt with
  | none => []
  | some n => if numTerms ≤ n then [] else [Event.log "Search stopped by user." "WARN"]

theorem take_processedCount (stopAt : Option Nat) (terms : List String) :
    terms.take (processedCount stopAt terms.length) =
      (match stopAt with
       | none => terms
       | some n => terms.take n) := by
  cases stopAt with
  | none => simp [processedCount]
  | some n =>
    simp only [processedCount]
    rcases le_total n terms.length with h | h
    · rw [Nat.min_eq_left h]
    · rw [Nat.min_eq_right h, List.take_length, List.take_of_length_le h]

theorem run_results_eq (store : Store) (st sf : String) (terms : List String)
    (oracle : Nat → RemoteOutcome) (stopAt : Option Nat) :
    run_results store st sf terms oracle stopAt =
      (perTermRecs store st sf oracle terms.length
        (terms.take (processedCount stopAt terms.length)) 0).flatten := by
  cases stopAt with
  | none =>
    unfold run_results
    rw [searchLoop_none store st sf oracle terms.length terms 0]
    rw [take_processedCount]
  | some n =>
    unfold run_results
    rw [searchLoop_some store st sf oracle terms.length n terms 0 (Nat.zero_le n)]
    rw [take_processedCount]
    simp

theorem run_api_search_eq (store : Store) (st sf : String) (terms : List String)
    (oracle : Nat → RemoteOutcome) (stopAt : Option Nat) :
    run_api_search store st sf terms oracle stopAt =
      (perTermEvents store st sf oracle terms.length
        (terms.take (processedCount stopAt terms.length)) 0).flatten ++
      stopNotice stopAt terms.length ++
      [Event.done ((perTermRecs store st sf oracle terms.length
        (terms.take (processedCount stopAt terms.length)) 0).flatten)] := by
  unfold run_api_search
  rw [run_results_eq]
  cases stopAt with
  | none =>
    rw [show (searchLoop store st sf oracle none terms.length terms 0).1 =
        (perTermEvents store st sf oracle terms.length terms 0).flatten from by
      rw [searchLoop_none store st sf oracle terms.length terms 0]]
    rw [take_processedCount]
    simp [stopNotice]
  | some n =>
    rw [show (searchLoop store st sf oracle (some n) terms.length terms 0).1 =
        (perTermEvents store st sf oracle terms.length (terms.take (n - 0)) 0).flatten ++
          (if terms.length ≤ n - 0 then []
           else [Event.log "Search stopped by user." "WARN"]) from by
      rw [searchLoop_some store st sf oracle terms.length n terms 0 (Nat.zero_le n)]]
    rw [take_processedCount]
    simp [stopNotice, List.append_assoc]

/-- Concrete store used by the witnesses below. -/
def sampleStore : Store :=
  { id := "7b0fb2ac", name := "Diesel", username := "u", password := "p" }

/-- Warning-level test on events. -/
def isWarnEvent : Event → Bool
  | .log _ level => level == "WARN"
  | .done _ => false

theorem perTermEvents_mem (store : Store) (st sf : String)
    (oracle : Nat → RemoteOutcome) (total : Nat) :
    ∀ (terms : List String) (index : Nat) (block : List Event),
      block ∈ perTermEvents store st sf oracle total terms index →
      ∃ t j, block = (handleTerm store st sf t j total (oracle j)).1 := by
  intro terms
  induction terms with
  | nil => intro index block h; simp [perTermEvents] at h
  | cons t rest ih =>
    intro index block h
    simp only [perTermEvents, List.mem_cons] at h
    rcases h with h | h
    · exact ⟨t, index, h⟩
    · exact ih (index + 1) block h

/-- Claim C1 (confirmed): in a run that processes its whole term list
(no cancellation) the terminal batch is the concatenation, in
submission order, of one nonempty record block per term — either the
payload records for that term, each tagged with the store name, or
exactly one synthetic record carrying the original term, an error
reason and the store name.  No term is silently dropped. -/
theorem C1_every_term_contributes (store : Store) (st sf : String)
    (terms : List String) (oracle : Nat → RemoteOutcome) :
    run_results store st sf terms oracle none =
      (perTermRecs store st sf oracle terms.length terms 0).flatten ∧
    (perTermRecs store st sf oracle terms.length terms 0).length = terms.length ∧
    (∀ i t, terms.get? i = some t →
      ∃ block,
        (perTermRecs store st sf oracle terms.length terms 0).get? i = some block ∧
        block ≠ [] ∧
        ((∃ reason, block = [mkErrorRecord t reason store.name]) ∨
          ∀ r ∈ block, dictGet r "_store_name" = some (.s store.name))) := by
  refine ⟨?_, perTermRecs_length store st sf oracle terms.length terms 0, ?_⟩
  · rw [run_results_eq, take_processedCount]
  · intro i t h
    refine ⟨(handleTerm store st sf t (0 + i) terms.length (oracle (0 + i))).2,
      perTermRecs_get store st sf oracle terms.length terms 0 i t h,
      handleTerm_recs_ne_nil store st sf t (0 + i) terms.length (oracle (0 + i)), ?_⟩
    rcases handleTerm_recs_cases store st sf t (0 + i) terms.length (oracle (0 + i)) with
      h1 | ⟨_, h2⟩
    · exact Or.inl h1
    · exact Or.inr h2

/-- Witness for C1 at a concrete one-term run whose lookup gets a 404. -/
theorem C1_witness :
    run_results sampleStore "outbound" "Client ID" ["A"]
        (fun _ => .response 404 [] "x") none =
      (perTermRecs sampleStore "outbound" "Client ID"
        (fun _ => .response 404 [] "x") (["A"] : List String).length ["A"] 0).flatten ∧
    ∃ block,
      (perTermRecs sampleStore "outbound" "Client ID"
        (fun _ => .response 404 [] "x") (["A"] : List String).length ["A"] 0).get? 0 =
        some block ∧
      block ≠ [] ∧
      ((∃ reason, block = [mkErrorRecord "A" reason sampleStore.name]) ∨
        ∀ r ∈ block, dictGet r "_store_name" = some (.s sampleStore.name)) :=
  ⟨(C1_every_term_contributes sampleStore "outbound" "Client ID" ["A"]
      (fun _ => .response 404 [] "x")).1,
   (C1_every_term_contributes sampleStore "outbound" "Client ID" ["A"]
      (fun _ => .response 404 [] "x")).2.2 0 "A" rfl⟩

/-- Claim C3 (confirmed): every run publishes zero or more log events
followed by exactly one terminal done event; the done records are the
per-term blocks of the processed prefix, joined in term-submission
order, the records of a single term contiguous and (by construction of
the blocks) in remote-response order. -/
theorem C3_event_stream (store : Store) (st sf : String) (terms : List String)
    (oracle : Nat → RemoteOutcome) (stopAt : Option Nat) :
    ∃ logs,
      run_api_search store st sf terms oracle stopAt =
        logs ++ [Event.done ((perTermRecs store st sf oracle terms.length
          (terms.take (processedCount stopAt terms.length)) 0).flatten)] ∧
      ∀ e ∈ logs, ∃ msg level, e = Event.log msg level := by
  refine ⟨(perTermEvents store st sf oracle terms.length
      (terms.take (processedCount stopAt terms.length)) 0).flatten ++
      stopNotice stopAt terms.length, ?_, ?_⟩
  · rw [run_api_search_eq]
  · intro e he
    rcases List.mem_append.mp he with h | h
    · rcases List.mem_flatten.mp h with ⟨block, hb, heb⟩
      obtain ⟨t, j, rfl⟩ := perTermEvents_mem store st sf oracle terms.length
        (terms.take (processedCount stopAt terms.length)) 0 block hb
      exact handleTerm_events_log store st sf t j terms.length (oracle j) e heb
    · cases stopAt with
      | none => simp [stopNotice] at h
      | some n =>
        simp only [stopNotice] at h
        split at h
        · simp at h
        · rw [List.mem_singleton] at h
          exact ⟨_, _, h⟩

/-- Witness for C3 at a concrete run. -/
theorem C3_witness :
    ∃ logs,
      run_api_search sampleStore "inbound" "Client ID" ["A"]
          (fun _ => .exn "boom") none =
        logs ++ [Event.done ((perTermRecs sampleStore "inbound" "Client ID"
          (fun _ => .exn "boom") (["A"] : List String).length
          ((["A"] : List String).take
            (processedCount none (["A"] : List String).length)) 0).flatten)] ∧
      ∀ e ∈ logs, ∃ msg level, e = Event.log msg level :=
  C3_event_stream sampleStore "inbound" "Client ID" ["A"] (fun _ => .exn "boom") none

/-- Claim C4 (confirmed): a stop signal visible before the first term
yields a stop notice and an empty terminal batch; a signal first seen
at the boundary of term `n` (mid-run) stops the loop there, keeping
exactly the records of the `n` fully processed terms, followed by the
stop notice and the terminal done event. -/
theorem C4_cancellation (store : Store) (st sf : String) (terms : List String)
    (oracle : Nat → RemoteOutcome) :
    (terms ≠ [] →
      run_api_search store st sf terms oracle (some 0) =
        [Event.log "Search stopped by user." "WARN", Event.done []]) ∧
    (∀ n, n < terms.length →
      run_api_search store st sf terms oracle (some n) =
        (perTermEvents store st sf oracle terms.length (terms.take n) 0).flatten ++
        [Event.log "Search stopped by user." "WARN",
         Event.done ((perTermRecs store st sf oracle terms.length
           (terms.take n) 0).flatten)]) := by
  constructor
  · intro hne
    rw [run_api_search_eq]
    have h0 : processedCount (some 0) terms.length = 0 := by simp [processedCount]
    have hlen : ¬ (terms.length ≤ 0) := by
      cases terms with
      | nil => simp at hne
      | cons a l => simp
    rw [h0]
    simp [stopNotice, perTermRecs, perTermEvents, hlen]
  · intro n hn
    rw [run_api_search_eq]
    have hpc : processedCount (some n) terms.length = n := by
      simp only [processedCount]
      omega
    have hlen : ¬ (terms.length ≤ n) := by omega
    rw [hpc]
    simp [stopNotice, hlen, List.append_assoc]

/-- Witness for C4 at a concrete two-term run stopped before the first
term and stopped after the first term. -/
theorem C4_witness :
    run_api_search sampleStore "inbound" "Client ID" ["A", "B"]
        (fun _ => .exn "x") (some 0) =
      [Event.log "Search stopped by user." "WARN", Event.done []] ∧
    run_api_search sampleStore "inbound" "Client ID" ["A", "B"]
        (fun _ => .exn "x") (some 1) =
      (perTermEvents sampleStore "inbound" "Client ID" (fun _ => .exn "x")
        (["A", "B"] : List String).length ((["A", "B"] : List String).take 1) 0).flatten ++
      [Event.log "Search stopped by user." "WARN",
       Event.done ((perTermRecs sampleStore "inbound" "Client ID" (fun _ => .exn "x")
         (["A", "B"] : List String).length
         ((["A", "B"] : List String).take 1) 0).flatten)] :=
  ⟨(C4_cancellation sampleStore "inbound" "Client ID" ["A", "B"] (fun _ => .exn "x")).1
      (by simp),
   (C4_cancellation sampleStore "inbound" "Client ID" ["A", "B"] (fun _ => .exn "x")).2 1
      (by simp)⟩

theorem not_point_cond (st sf : String) (hns : ¬(st = "outbound" ∧ sf = "Client ID")) :
    (decide (st = "outbound") && decide (sf = "Client ID")) = false := by
  by_cases h1 : st = "outbound"
  · by_cases h2 : sf = "Client ID"
    · exact absurd ⟨h1, h2⟩ hns
    · simp [h1, h2]
  · simp [h1]

/-- Claim C5, counterexample: a windowed (non point-lookup) lookup that
returns 404 emits no warning-level event at all; it logs the generic
error-level message instead, refuting the claim that a 404 yields a
warning-level log under either lookup strategy. -/
theorem C5_counterexample :
    ((handleTerm sampleStore "inbound" "Client ID" "X" 0 1
      (.response 404 [] "nf")).1.filter isWarnEvent = []) ∧
    ((handleTerm sampleStore "inbound" "Client ID" "X" 0 1
      (.response 404 [] "nf")).1.contains
        (Event.log "Error for \x27X\x27: HTTP 404" "ERROR") = true) ∧
    (handleTerm sampleStore "inbound" "Client ID" "X" 0 1 (.response 404 [] "nf")).2 =
      [mkErrorRecord "X" "Not Found" sampleStore.name] := by
  decide

/-- Claim C5 (corrected): a 404 yields the warning-level not-found log
only on the point-lookup path; on the windowed path a 404 falls into
the generic non-200 branch and is logged at error level, with no
warning-level event for the term; on both paths the term is left
unsatisfied and gets the synthetic record. -/
theorem C5_notfound_by_strategy (store : Store) (term : String) (idx total : Nat)
    (body : Record) (text : String) (st sf : String) :
    (st = "outbound" → sf = "Client ID" →
      Event.log ("Term \x27" ++ term ++ "\x27 not found (404).") "WARN" ∈
        (handleTerm store st sf term idx total (.response 404 body text)).1 ∧
      (handleTerm store st sf term idx total (.response 404 body text)).2 =
        [mkErrorRecord term "Not Found" store.name]) ∧
    (¬(st = "outbound" ∧ sf = "Client ID") →
      Event.log ("Error for \x27" ++ term ++ "\x27: HTTP 404") "ERROR" ∈
        (handleTerm store st sf term idx total (.response 404 body text)).1 ∧
      (handleTerm store st sf term idx total (.response 404 body text)).1.filter
        isWarnEvent = [] ∧
      (handleTerm store st sf term idx total (.response 404 body text)).2 =
        [mkErrorRecord term "Not Found" store.name]) := by
  have h404 : toString (404 : Nat) = "404" := rfl
  constructor
  · intro hst hsf
    subst hst
    subst hsf
    constructor
    · simp [handleTerm]
    · simp [handleTerm]
  · intro hns
    have hcond := not_point_cond st sf hns
    refine ⟨?_, ?_, ?_⟩
    · simp [handleTerm, hcond, h404, String.append_assoc]
    · simp [handleTerm, hcond, isWarnEvent]
    · simp [handleTerm, hcond]

/-- Witness for C5 on both strategies at concrete inputs. -/
theorem C5_witness :
    (Event.log "Term \x27A\x27 not found (404)." "WARN" ∈
        (handleTerm sampleStore "outbound" "Client ID" "A" 0 1
          (.response 404 [] "")).1 ∧
      (handleTerm sampleStore "outbound" "Client ID" "A" 0 1
        (.response 404 [] "")).2 = [mkErrorRecord "A" "Not Found" sampleStore.name]) ∧
    (Event.log "Error for \x27A\x27: HTTP 404" "ERROR" ∈
        (handleTerm sampleStore "outbound" "Channel ID" "A" 0 1
          (.response 404 [] "")).1 ∧
      (handleTerm sampleStore "outbound" "Channel ID" "A" 0 1
        (.response 404 [] "")).1.filter isWarnEvent = [] ∧
      (handleTerm sampleStore "outbound" "Channel ID" "A" 0 1
        (.response 404 [] "")).2 = [mkErrorRecord "A" "Not Found" sampleStore.name]) :=
  ⟨(C5_notfound_by_strategy sampleStore "A" 0 1 [] "" "outbound" "Client ID").1 rfl rfl,
   (C5_notfound_by_strategy sampleStore "A" 0 1 [] "" "outbound" "Channel ID").2
     (by simp)⟩

/-- Claim C10 (confirmed): every term left unsatisfied by an HTTP
response — a 404 on point lookup, an empty windowed result set, or any
other unsuccessful status on either path — gets the literal error
reason Not Found in its synthetic record, regardless of the status;
only a transport-level failure gets the distinct reason Network Error
followed by the failure description.  The reason is stored under the
status_error field of the synthetic record. -/
theorem C10_error_reasons (store : Store) (st sf term : String) (idx total : Nat) :
    (∀ (status : Nat) (body : Record) (text : String),
      st = "outbound" → sf = "Client ID" → status ≠ 200 →
      (handleTerm store st sf term idx total (.response status body text)).2 =
        [mkErrorRecord term "Not Found" store.name]) ∧
    (∀ (status : Nat) (body : Record) (text : String),
      ¬(st = "outbound" ∧ sf = "Client ID") →
      (status ≠ 200 ∨ getList body (st ++ "s") = []) →
      (handleTerm store st sf term idx total (.response status body text)).2 =
        [mkErrorRecord term "Not Found" store.name]) ∧
    (∀ e, (handleTerm store st sf term idx total (.exn e)).2 =
      [mkErrorRecord term ("Network Error: " ++ e) store.name]) ∧
    (∀ t2 reason name2, dictGet (mkErrorRecord t2 reason name2) "status_error" =
      some (.s reason)) := by
  refine ⟨?_, ?_, ?_, ?_⟩
  · intro status body text hst hsf hs
    subst hst
    subst hsf
    by_cases h404 : status = 404 <;> simp [handleTerm, hs, h404]
  · intro status body text hns hcase
    have hcond := not_point_cond st sf hns
    by_cases h200 : status = 200
    · have hempty : getList body (st ++ "s") = [] := by
        rcases hcase with hs | he
        · exact absurd h200 hs
        · exact he
      simp [handleTerm, hcond, h200, hempty]
    · simp [handleTerm, hcond, h200]
  · intro e
    unfold handleTerm
    split <;> rfl
  · intro t2 reason name2
    simp [mkErrorRecord, dictGet]

/-- Witness for C10 at concrete inputs covering all three cases. -/
theorem C10_witness :
    (handleTerm sampleStore "outbound" "Client ID" "A" 0 1
      (.response 500 [] "oops")).2 = [mkErrorRecord "A" "Not Found" sampleStore.name] ∧
    (handleTerm sampleStore "inbound" "Client ID" "A" 0 1
      (.response 200 [] "")).2 = [mkErrorRecord "A" "Not Found" sampleStore.name] ∧
    (handleTerm sampleStore "inbound" "Client ID" "A" 0 1 (.exn "timeout")).2 =
      [mkErrorRecord "A" ("Network Error: " ++ "timeout") sampleStore.name] ∧
    dictGet (mkErrorRecord "A" "Not Found" "Diesel") "status_error" =
      some (.s "Not Found") :=
  ⟨(C10_error_reasons sampleStore "outbound" "Client ID" "A" 0 1).1 500 [] "oops"
      rfl rfl (by decide),
   (C10_error_reasons sampleStore "inbound" "Client ID" "A" 0 1).2.1 200 [] ""
      (by simp) (Or.inr rfl),
   (C10_error_reasons sampleStore "inbound" "Client ID" "A" 0 1).2.2.1 "timeout",
   (C10_error_reasons sampleStore "inbound" "Client ID" "A" 0 1).2.2.2 "A" "Not Found"
      "Diesel"⟩

/-- Claim C2 (code bug): the source computes exactly the field-to-query
parameter mapping the claim describes, but never adds it to the
request: the windowed request carries only startDate, endDate, the
generic search term and pageSize.  Evaluated at a failing input (field
Channel ID, term X, utcnow on day 20000 after the epoch, a 730-day
trailing window): the computed name channelId appears in no query
parameter key. -/
theorem C2_field_param_never_sent :
    api_search_field "Client ID" = "clientId" ∧
    api_search_field "Channel ID" = "channelId" ∧
    api_search_field "Supplier Reference" = "supplierReference" ∧
    api_search_field "anything else" = "search" ∧
    windowedParams 20000 "X" =
      [("startDate", "20221005"), ("endDate", "20241004"),
       ("search", "X"), ("pageSize", "100")] ∧
    ((windowedParams 20000 "X").map Prod.fst).contains "channelId" = false := by
  decide

theorem sorted_headers_agree (ks : List String) :
    ((("Store" :: ks).dedup.filter (fun x => x ≠ "Store")).insertionSort strLe) =
    (((ks.filter (fun x => x ≠ "Store")).dedup).insertionSort strLe) := by
  have ndA : (("Store" :: ks).dedup.filter (fun x => x ≠ "Store")).Nodup :=
    (List.nodup_dedup _).filter _
  have ndB : ((ks.filter (fun x => x ≠ "Store")).dedup).Nodup := List.nodup_dedup _
  have hmem : ∀ a, a ∈ ("Store" :: ks).dedup.filter (fun x => x ≠ "Store") ↔
      a ∈ (ks.filter (fun x => x ≠ "Store")).dedup := by
    intro a
    simp only [List.mem_filter, List.mem_dedup, List.mem_cons, decide_eq_true_eq]
    tauto
  have hperm := ((List.perm_insertionSort strLe
      (("Store" :: ks).dedup.filter (fun x => x ≠ "Store"))).trans
      ((List.perm_ext_iff_of_nodup ndA ndB).mpr hmem)).trans
      (List.perm_insertionSort strLe ((ks.filter (fun x => x ≠ "Store")).dedup)).symm
  exact List.eq_of_perm_of_sorted hperm (List.sorted_insertionSort strLe _)
    (List.sorted_insertionSort strLe _)

/-- Claim C6, counterexample: projecting the empty batch leaves the
column list empty, so the first column is not the Store field for every
batch. -/
theorem C6_counterexample :
    (update_results_table ([] : List Record)).1 = [] ∧
    (update_results_table ([] : List Record)).1.head? = none := by
  decide

/-- Claim C6 (corrected): for every nonempty batch the projected column
list has Store first, followed by the union of all other field names
present in any flattened record, distinct and sorted lexicographically;
each row looks every column up in its record with the empty string when
absent, rows in batch order; the CSV export computes the same header.
The empty batch, however, is projected to an empty column list. -/
theorem C6_projection (results : List Record) (h : results ≠ []) :
    (update_results_table results).1.head? = some "Store" ∧
    List.Sorted strLe (update_results_table results).1.tail ∧
    (update_results_table results).1.Nodup ∧
    (∀ c, c ∈ (update_results_table results).1 ↔
      (c = "Store" ∨ ∃ r ∈ flat_results results, c ∈ r.map Prod.fst)) ∧
    (update_results_table results).2 =
      (flat_results results).map (fun r =>
        (update_results_table results).1.map (fun c => (dictGet r c).getD (.s ""))) ∧
    export_headers results = (update_results_table results).1 := by
  have hne : results.isEmpty = false := by
    cases results with
    | nil => exact absurd rfl h
    | cons a l => rfl
  refine ⟨?_, ?_, ?_, ?_, ?_, ?_⟩
  · simp [update_results_table, hne]
  · simp only [update_results_table, hne, Bool.false_eq_true, if_false, List.tail_cons]
    exact List.sorted_insertionSort strLe _
  · simp only [update_results_table, hne, Bool.false_eq_true, if_false]
    rw [List.nodup_cons]
    constructor
    · rw [List.mem_insertionSort]
      simp
    · exact (List.perm_insertionSort strLe _).symm.nodup ((List.nodup_dedup _).filter _)
  · intro c
    simp only [update_results_table, hne, Bool.false_eq_true, if_false, List.mem_cons,
      List.mem_insertionSort, List.mem_filter, List.mem_dedup, List.mem_flatMap,
      decide_eq_true_eq]
    tauto
  · simp only [update_results_table, hne, Bool.false_eq_true, if_false]
  · simp only [update_results_table, export_headers, hne, Bool.false_eq_true, if_false]
    rw [sorted_headers_agree]

/-- Witness for C6 at a concrete one-record batch. -/
theorem C6_witness :
    (update_results_table [[("_store_name", JValue.s "S")]]).1.head? = some "Store" ∧
    List.Sorted strLe (update_results_table [[("_store_name", JValue.s "S")]]).1.tail ∧
    (update_results_table [[("_store_name", JValue.s "S")]]).1.Nodup ∧
    (∀ c, c ∈ (update_results_table [[("_store_name", JValue.s "S")]]).1 ↔
      (c = "Store" ∨ ∃ r ∈ flat_results [[("_store_name", JValue.s "S")]],
        c ∈ r.map Prod.fst)) ∧
    (update_results_table [[("_store_name", JValue.s "S")]]).2 =
      (flat_results [[("_store_name", JValue.s "S")]]).map (fun r =>
        (update_results_table [[("_store_name", JValue.s "S")]]).1.map
          (fun c => (dictGet r c).getD (.s ""))) ∧
    export_headers [[("_store_name", JValue.s "S")]] =
      (update_results_table [[("_store_name", JValue.s "S")]]).1 :=
  C6_projection [[("_store_name", JValue.s "S")]] (by simp)

/-- Claim C8, counterexample: the raw input consisting of a single
comma parses to an empty term list, yet the run is not rejected — the
guard only checks that the raw string strips to nonempty, so previous
results are cleared and a worker is spawned on zero terms. -/
theorem C8_counterexample :
    parseTerms "," = [] ∧
    start_search "," true = [.clearResults, .spawnSearch []] := by
  decide

/-- Claim C8 (corrected): the guard of `start_search` rejects exactly
the invocations whose raw term string strips to empty — before any
state is touched, with only the warning dialog shown; such an input
also parses to an empty term list.  A raw string that strips to
nonempty but parses to an empty term list (only separators) is not
rejected: the results are cleared and a worker is spawned on zero
terms. -/
theorem C8_blank_rejection (raw : String) (store_found : Bool) :
    (pyStrip raw = "" →
      start_search raw store_found =
        [.showWarning "Input Required" "Please enter one or more search terms."]) ∧
    (pyStrip raw ≠ "" → store_found = true →
      start_search raw store_found = [.clearResults, .spawnSearch (parseTerms raw)]) := by
  constructor
  · intro hblank
    simp [start_search, hblank]
  · intro hblank hsf
    simp [start_search, hblank, hsf]

/-- Witness for C8 on a blank and a nonblank input. -/
theorem C8_witness :
    start_search " " true =
      [.showWarning "Input Required" "Please enter one or more search terms."] ∧
    start_search "a" true = [.clearResults, .spawnSearch (parseTerms "a")] :=
  ⟨(C8_blank_rejection " " true).1 (by decide),
   (C8_blank_rejection "a" true).2 (by decide) rfl⟩

/-- Claim C9 (confirmed): exporting an empty stored batch reports the
informational no-data outcome whatever the chosen path or the state of
the file system: no file dialog result is consulted and no write is
attempted, and the outcome is not the reported error one. -/
theorem C9_empty_export (filepath write_error : Option String) :
    export_to_csv [] filepath write_error = .nothingToExport := by
  rfl
